import Mathlib

/-!
# Verification of the Phase-2 MPC parameter transform (`phase2/src/parameters.rs`)

This file gives a shallow embedding of the Phase-2 trusted-setup core:
the `MPCParameters` value (Groth16 proving key + `cs_hash` + contribution log),
the `contribute` transform, pairwise `verify`, transcript replay, the
chunking/combining logic of `new_chunked`/`combine`, and the serialized form.

The embedding is generic over the pairing-engine carrier types, mirroring the
Rust generic `E: PairingEngine`.  Group and hash primitives that the source
obtains from external crates (`setup_utils`, `snarkvm_curves`,
`phase2/src/keypair.rs` — the latter part of this repository but not available
here) are collected in a `Primitives` bundle; their behaviour is modelled from
the specification where noted.  A concrete instantiation over `ZMod 13` at the
end of the file provides executable witnesses.
-/

namespace Phase2

/-- Decidable equality for `Except`, used to evaluate results concretely. -/
instance {E A : Type} [DecidableEq E] [DecidableEq A] : DecidableEq (Except E A)
  | Except.error a, Except.error b =>
    if h : a = b then Decidable.isTrue (by rw [h])
    else Decidable.isFalse (fun c => h (Except.error.inj c))
  | Except.error _, Except.ok _ => Decidable.isFalse (fun c => Except.noConfusion c)
  | Except.ok _, Except.error _ => Decidable.isFalse (fun c => Except.noConfusion c)
  | Except.ok a, Except.ok b =>
    if h : a = b then Decidable.isTrue (by rw [h])
    else Decidable.isFalse (fun c => h (Except.ok.inj c))

/-- Invariant kinds named by `BrokenInvariant` errors (spec §7, used by
`ensure_unchanged` in `parameters.rs`). -/
inductive InvariantKind where
  | deltaG1
  | csHash
  | contributions
  | alphaG1
  | betaG1
  | betaG2
  | gammaG2
  | gammaAbcG1
  | alphaG1Query
  | betaG1Query
  | betaG2Query
  | transcript
deriving DecidableEq

/-- Error kinds surfaced by the Phase-2 core (spec §7 and the
`Phase2Error` / `SynthesisError` variants used in `parameters.rs`). -/
inductive Phase2Error where
  | noContributions
  | invalidLength
  | brokenInvariant (kind : InvariantKind)
  | pairingCheckFailed (msg : String)
  | unconstrainedVariable
deriving DecidableEq

/-- Per-contribution public material (`PublicKey` in `keypair.rs`, spec §3). -/
structure PublicKey (G1 G2 H : Type) where
  delta_after : G1
  s : G1
  s_delta : G1
  r_delta : G2
  transcript : H
deriving DecidableEq

/-- Groth16 verifying key (snarkVM `VerifyingKey`, spec §3). -/
structure VerifyingKey (G1 G2 : Type) where
  alpha_g1 : G1
  beta_g2 : G2
  gamma_g2 : G2
  delta_g2 : G2
  gamma_abc_g1 : List G1
deriving DecidableEq

/-- Groth16 proving key (snarkVM `ProvingKey`, spec §3). -/
structure ProvingKey (G1 G2 : Type) where
  vk : VerifyingKey G1 G2
  beta_g1 : G1
  delta_g1 : G1
  a_query : List G1
  b_g1_query : List G1
  b_g2_query : List G2
  h_query : List G1
  l_query : List G1
deriving DecidableEq

/-- The evolving ceremony value: proving key, frozen circuit digest, and the
append-only contribution log (`MPCParameters` in `parameters.rs`). -/
structure MPCParameters (G1 G2 H : Type) where
  params : ProvingKey G1 G2
  cs_hash : H
  contributions : List (PublicKey G1 G2 H)
deriving DecidableEq

/-- Modelled from the spec: the curve/hash primitive facade (spec §2 item 1 and
§6) that the source takes from `setup_utils`, `snarkvm_curves` and
`keypair.rs`.  `smul1`/`smul2` are scalar multiplication on G1/G2, `pairing`
the bilinear map, `inv` field inversion, `batchMul` the in-place constant
scalar multi-exponentiation (kept fallible, matching its `Result` signature),
`hashCsPubkeys` the BLAKE2b transcript digest over
(cs_hash, prior pubkeys, s, s·δ), `hashToCurve` the G2 hash-to-curve on the
hex transcript, and `pubkeyHash` the BLAKE2b digest of a serialized pubkey. -/
structure Primitives (G1 G2 GT Fr H : Type) where
  g1gen : G1
  g2gen : G2
  zero1 : G1
  add1 : G1 → G1 → G1
  smul1 : Fr → G1 → G1
  smul2 : Fr → G2 → G2
  pairing : G1 → G2 → GT
  inv : Fr → Fr
  batchMul : List G1 → Fr → Except Phase2Error (List G1)
  hashCsPubkeys : H → List (PublicKey G1 G2 H) → G1 → G1 → H
  hashToCurve : H → G2
  pubkeyHash : PublicKey G1 G2 H → H

variable {G1 G2 GT Fr H : Type}
variable [DecidableEq G1] [DecidableEq G2] [DecidableEq GT] [DecidableEq H]

/-- `ensure_unchanged` from `parameters.rs`: equality or `BrokenInvariant`. -/
def ensure_unchanged {T : Type} [DecidableEq T] (before after : T) (kind : InvariantKind) :
    Except Phase2Error Unit :=
  if before = after then Except.ok () else Except.error (Phase2Error.brokenInvariant kind)

/-- `ensure_same_length` from `parameters.rs`. -/
def ensure_same_length {T U : Type} (a : List T) (b : List U) : Except Phase2Error Unit :=
  if a.length = b.length then Except.ok () else Except.error Phase2Error.invalidLength

/-- `ensure_unchanged_vec` from `parameters.rs`: a length check (surfacing
`InvalidLength`) followed by element-wise `ensure_unchanged`; since every
element failure carries the same kind, the element loop is equivalent to one
list equality test. -/
def ensure_unchanged_vec {T : Type} [DecidableEq T] (before after : List T)
    (kind : InvariantKind) : Except Phase2Error Unit :=
  if before.length ≠ after.length then Except.error Phase2Error.invalidLength
  else if before = after then Except.ok ()
  else Except.error (Phase2Error.brokenInvariant kind)

/-- `check_same_ratio` from `setup_utils` (modelled from the spec's ratio
check, glossary: `e(A, Y) = e(B, X)` for pairs `(A, B)` and `(X, Y)`).
Renamed from the source's `check_same_ratio`. -/
def ratioCheck (P : Primitives G1 G2 GT Fr H) (p1 : G1 × G1) (p2 : G2 × G2) (msg : String) :
    Except Phase2Error Unit :=
  if P.pairing p1.1 p2.2 = P.pairing p1.2 p2.1 then Except.ok ()
  else Except.error (Phase2Error.pairingCheckFailed msg)

/-- `merge_pairs` from `setup_utils` (modelled from spec §4.3): the random
linear combination `(Σ ρᵢ·Aᵢ, Σ ρᵢ·Bᵢ)`; the sampled scalars `ρ` are passed
explicitly. -/
def merge_pairs (P : Primitives G1 G2 GT Fr H) (rho : List Fr) (a b : List G1) : G1 × G1 :=
  ((List.zipWith P.smul1 rho a).foldl P.add1 P.zero1,
   (List.zipWith P.smul1 rho b).foldl P.add1 P.zero1)

/-- Secret per-contribution scalar (`PrivateKey` in `keypair.rs`). -/
structure PrivateKey (Fr : Type) where
  delta : Fr

/-- Contributor keypair (`Keypair` in `keypair.rs`). -/
structure Keypair (G1 G2 Fr H : Type) where
  public_key : PublicKey G1 G2 H
  private_key : PrivateKey Fr

/-- Modelled from the spec: `Keypair::new` from `phase2/src/keypair.rs` (part
of this repository but not under `src/`), following spec §4.2 step 1: sample
`δ` and `s` (passed here as explicit RNG outputs), set `s_delta = s·δ`,
`transcript = BLAKE2b(cs_hash ‖ prior contributions ‖ s ‖ s_delta)`,
`r = hash_to_curve(transcript)`, `r_delta = r·δ`, and
`delta_after = (current δ·G₁)·δ`. -/
def Keypair.new (P : Primitives G1 G2 GT Fr H) (delta_g1 : G1) (cs_hash : H)
    (contributions : List (PublicKey G1 G2 H)) (delta : Fr) (s : G1) : Keypair G1 G2 Fr H :=
  let s_delta := P.smul1 delta s
  let t := P.hashCsPubkeys cs_hash contributions s s_delta
  let r := P.hashToCurve t
  { public_key :=
      { delta_after := P.smul1 delta delta_g1
        s := s
        s_delta := s_delta
        r_delta := P.smul2 delta r
        transcript := t }
    private_key := { delta := delta } }

/-- `MPCParameters::contribute` (`parameters.rs` lines 376–397).  The RNG is
replaced by its two outputs `delta` and `s`; the `&mut self` receiver becomes
explicit state passing, so the first component of the result is the value of
`self` after the call — including after an early `?` return, which models the
partial mutation the source performs before a `batch_mul` failure. -/
def contribute (P : Primitives G1 G2 GT Fr H) (m : MPCParameters G1 G2 H)
    (delta : Fr) (s : G1) : MPCParameters G1 G2 H × Except Phase2Error H :=
  let kp := Keypair.new P m.params.delta_g1 m.cs_hash m.contributions delta s
  let delta_inv := P.inv kp.private_key.delta
  match P.batchMul m.params.l_query delta_inv with
  | Except.error e => (m, Except.error e)
  | Except.ok l' =>
    match P.batchMul m.params.h_query delta_inv with
    | Except.error e => ({ m with params := { m.params with l_query := l' } }, Except.error e)
    | Except.ok h' =>
      ({ m with
          params :=
            { m.params with
              l_query := l'
              h_query := h'
              vk := { m.params.vk with delta_g2 := P.smul2 kp.private_key.delta m.params.vk.delta_g2 }
              delta_g1 := P.smul1 kp.private_key.delta m.params.delta_g1 }
          contributions := m.contributions ++ [kp.public_key] },
       Except.ok (P.pubkeyHash kp.public_key))

/-- Loop body of `verify_transcript` (`parameters.rs` lines 588–617): walk the
log with the running index `i` and `old_delta`, checking the recomputed
transcript digest, the signature of knowledge and the chained delta, emitting
each pubkey's hash. -/
def verifyTranscriptAux (P : Primitives G1 G2 GT Fr H) (cs_hash : H)
    (all : List (PublicKey G1 G2 H)) :
    Nat → G1 → List (PublicKey G1 G2 H) → Except Phase2Error (List H)
  | _, _, [] => Except.ok []
  | i, old_delta, pk :: rest => do
    let hsh := P.hashCsPubkeys cs_hash (all.take i) pk.s pk.s_delta
    ensure_unchanged pk.transcript hsh InvariantKind.transcript
    let r := P.hashToCurve hsh
    ratioCheck P (pk.s, pk.s_delta) (r, pk.r_delta) "Incorrect signature of knowledge"
    ratioCheck P (old_delta, pk.delta_after) (r, pk.r_delta) "Inconsistent G1 Delta"
    let tail ← verifyTranscriptAux P cs_hash all (i + 1) pk.delta_after rest
    Except.ok (P.pubkeyHash pk :: tail)

/-- `verify_transcript` from `parameters.rs` (lines 588–617). -/
def verify_transcript (P : Primitives G1 G2 GT Fr H) (cs_hash : H)
    (contributions : List (PublicKey G1 G2 H)) : Except Phase2Error (List H) :=
  verifyTranscriptAux P cs_hash contributions 0 P.g1gen contributions

/-- `MPCParameters::verify` (`parameters.rs` lines 404–497).  The two
`merge_pairs` scalar samples are passed explicitly as `rho_h`/`rho_l`.  The
result is wrapped in `Option`: `none` models the Rust panic raised by the
slice `after.contributions[0..before.contributions.len()]` when
`after.contributions` is shorter than `before.contributions`. -/
def verify (P : Primitives G1 G2 GT Fr H) (rho_h rho_l : List Fr)
    (before after : MPCParameters G1 G2 H) : Option (Except Phase2Error (List H)) :=
  match after.contributions.getLast? with
  | none => some (Except.error Phase2Error.noContributions)
  | some pubkey =>
    let pre : Except Phase2Error Unit := do
      ensure_unchanged pubkey.delta_after after.params.delta_g1 InvariantKind.deltaG1
      ratioCheck P (P.g1gen, pubkey.delta_after) (P.g2gen, after.params.vk.delta_g2)
        "Inconsistent G2 Delta"
    match pre with
    | Except.error e => some (Except.error e)
    | Except.ok _ =>
      if before.contributions.length ≤ after.contributions.length then
        some (do
          ensure_unchanged before.contributions
            (after.contributions.take before.contributions.length) InvariantKind.contributions
          ensure_unchanged before.cs_hash after.cs_hash InvariantKind.csHash
          ensure_same_length before.params.h_query after.params.h_query
          ensure_same_length before.params.l_query after.params.l_query
          ensure_unchanged before.params.vk.alpha_g1 after.params.vk.alpha_g1 InvariantKind.alphaG1
          ensure_unchanged before.params.beta_g1 after.params.beta_g1 InvariantKind.betaG1
          ensure_unchanged before.params.vk.beta_g2 after.params.vk.beta_g2 InvariantKind.betaG2
          ensure_unchanged before.params.vk.gamma_g2 after.params.vk.gamma_g2 InvariantKind.gammaG2
          ensure_unchanged_vec before.params.vk.gamma_abc_g1 after.params.vk.gamma_abc_g1
            InvariantKind.gammaAbcG1
          ensure_unchanged_vec before.params.a_query after.params.a_query
            InvariantKind.alphaG1Query
          ensure_unchanged_vec before.params.b_g1_query after.params.b_g1_query
            InvariantKind.betaG1Query
          ensure_unchanged_vec before.params.b_g2_query after.params.b_g2_query
            InvariantKind.betaG2Query
          ratioCheck P (merge_pairs P rho_h before.params.h_query after.params.h_query)
            (after.params.vk.delta_g2, before.params.vk.delta_g2) "H_query ratio check failed"
          ratioCheck P (merge_pairs P rho_l before.params.l_query after.params.l_query)
            (after.params.vk.delta_g2, before.params.vk.delta_g2) "L_query ratio check failed"
          verify_transcript P before.cs_hash after.contributions)
      else none

/-- `MPCParameters::combine` (`parameters.rs` lines 499–520).  The unguarded
`mpcs[0]` indexing of the source becomes the `none` branch for an empty chunk
list; the `extend_from_slice` loop over all chunks becomes a `foldl`. -/
def combine (queries : ProvingKey G1 G2) (mpcs : List (MPCParameters G1 G2 H)) :
    Option (MPCParameters G1 G2 H) :=
  match mpcs with
  | [] => none
  | m0 :: rest =>
    some
      { params :=
          { vk := m0.params.vk
            beta_g1 := m0.params.beta_g1
            delta_g1 := m0.params.delta_g1
            a_query := queries.a_query
            b_g1_query := queries.b_g1_query
            b_g2_query := queries.b_g2_query
            h_query := (m0 :: rest).foldl (fun acc m => acc ++ m.params.h_query) []
            l_query := (m0 :: rest).foldl (fun acc m => acc ++ m.params.l_query) [] }
        cs_hash := m0.cs_hash
        contributions := m0.contributions }

/-- The chunk slice of `new_chunked` (`parameters.rs` lines 242–251):
`params.h_query[chunk_start..min(chunk_end, len)]` when `chunk_start < len`,
and the empty vector otherwise. -/
def chunkOf {T : Type} (l : List T) (chunk_size i : Nat) : List T :=
  if i * chunk_size < l.length then
    (l.drop (i * chunk_size)).take (min ((i + 1) * chunk_size) l.length - i * chunk_size)
  else []

/-- One chunk value built by the `new_chunked` loop (`parameters.rs` lines
252–265): the full verifying key, `beta_g1`, `delta_g1` and `cs_hash`, empty
a/b queries and contribution log, and the `i`-th slices of the h/l queries. -/
def mkChunk (pk : ProvingKey G1 G2) (c : H) (chunk_size i : Nat) : MPCParameters G1 G2 H :=
  { params :=
      { vk := pk.vk
        beta_g1 := pk.beta_g1
        delta_g1 := pk.delta_g1
        a_query := []
        b_g1_query := []
        b_g2_query := []
        h_query := chunkOf pk.h_query chunk_size i
        l_query := chunkOf pk.l_query chunk_size i }
    cs_hash := c
    contributions := [] }

/-- Number of chunks computed by `new_chunked` (`parameters.rs` line 238). -/
def numChunks (pk : ProvingKey G1 G2) (chunk_size : Nat) : Nat :=
  (max pk.h_query.length pk.l_query.length + chunk_size - 1) / chunk_size

/-- The chunking tail of `MPCParameters::new_chunked` (`parameters.rs` lines
218–270), given the already-assembled proving key and its `cs_hash` (the QAP
evaluation prefix of `new_chunked` lives in `phase2/src/polynomial.rs`, which
is not under `src/`).  Returns the full `MPCParameters`, the shared query
parameters (h/l emptied), and the chunk list.  `none` models the Rust
division-by-zero panic for `chunk_size = 0`. -/
def new_chunked (pk : ProvingKey G1 G2) (c : H) (chunk_size : Nat) :
    Option (MPCParameters G1 G2 H × ProvingKey G1 G2 × List (MPCParameters G1 G2 H)) :=
  if chunk_size = 0 then none
  else
    some
      ({ params := pk, cs_hash := c, contributions := [] },
       { pk with h_query := [], l_query := [] },
       (List.range (numChunks pk chunk_size)).map (mkChunk pk c chunk_size))

/-! ## Serialization

`MPCParameters::write`/`read` (`parameters.rs` lines 524–546) delegate the
group-element and length encodings to snarkVM's `CanonicalSerialize` and to
`PublicKey::write_batch`/`read_batch` (`keypair.rs`), none of which are under
`src/`.  They are modelled from spec §6: the byte layouts are reproduced
exactly (`u64 LE` vector lengths, `u32 LE` contribution count, field order),
while the per-element encodings are abstract codecs. -/

/-- Modelled from the spec: abstract per-element byte codecs for the group
elements and the 64-byte hash (spec §6, "assumed primitives"). -/
structure Codec (G1 G2 H : Type) where
  encG1 : G1 → List Nat
  decG1 : List Nat → Option (G1 × List Nat)
  encG2 : G2 → List Nat
  decG2 : List Nat → Option (G2 × List Nat)
  encH : H → List Nat
  decH : List Nat → Option (H × List Nat)

/-- A codec decodes exactly what it encoded, leaving the rest of the stream. -/
def Codec.RoundTrip (C : Codec G1 G2 H) : Prop :=
  (∀ x rest, C.decG1 (C.encG1 x ++ rest) = some (x, rest)) ∧
  (∀ x rest, C.decG2 (C.encG2 x ++ rest) = some (x, rest)) ∧
  (∀ x rest, C.decH (C.encH x ++ rest) = some (x, rest))

/-- Little-endian base-256 encoding of `n` on `k` bytes (spec §6 `u64 LE` /
`u32 LE` length fields). -/
def natLE : Nat → Nat → List Nat
  | 0, _ => []
  | k + 1, n => n % 256 :: natLE k (n / 256)

/-- Little-endian base-256 decoding of `k` bytes. -/
def decLE : Nat → List Nat → Option (Nat × List Nat)
  | 0, l => some (0, l)
  | _ + 1, [] => none
  | k + 1, b :: l => (decLE k l).map (fun p => (b + 256 * p.1, p.2))

/-- Spec §6 `vec(x)`: `u64 LE length ‖ elements`. -/
def writeVec {T : Type} (enc : T → List Nat) (v : List T) : List Nat :=
  natLE 8 v.length ++ (v.map enc).flatten

/-- Read `n` consecutive elements with the given element decoder. -/
def readElems {T : Type} (dec : List Nat → Option (T × List Nat)) :
    Nat → List Nat → Option (List T × List Nat)
  | 0, l => some ([], l)
  | n + 1, l =>
    match dec l with
    | none => none
    | some (x, l') => (readElems dec n l').map (fun p => (x :: p.1, p.2))

/-- Read a `vec(x)`: `u64 LE` length, then that many elements. -/
def readVec {T : Type} (dec : List Nat → Option (T × List Nat)) (l : List Nat) :
    Option (List T × List Nat) :=
  match decLE 8 l with
  | none => none
  | some (n, l') => readElems dec n l'

/-- Spec §6 `PublicKey` layout:
`delta_after ‖ s ‖ s_delta ‖ r_delta ‖ transcript`. -/
def writePublicKey (C : Codec G1 G2 H) (pk : PublicKey G1 G2 H) : List Nat :=
  C.encG1 pk.delta_after ++ C.encG1 pk.s ++ C.encG1 pk.s_delta ++
    C.encG2 pk.r_delta ++ C.encH pk.transcript

/-- Decoder matching `writePublicKey`. -/
def readPublicKey (C : Codec G1 G2 H) (l : List Nat) :
    Option (PublicKey G1 G2 H × List Nat) :=
  (C.decG1 l).bind fun p1 =>
  (C.decG1 p1.2).bind fun p2 =>
  (C.decG1 p2.2).bind fun p3 =>
  (C.decG2 p3.2).bind fun p4 =>
  (C.decH p4.2).bind fun p5 =>
  some ({ delta_after := p1.1, s := p2.1, s_delta := p3.1, r_delta := p4.1,
          transcript := p5.1 }, p5.2)

/-- `PublicKey::write_batch` (spec §6): `u32 LE count ‖ pubkeys`. -/
def writeBatch (C : Codec G1 G2 H) (ks : List (PublicKey G1 G2 H)) : List Nat :=
  natLE 4 ks.length ++ (ks.map (writePublicKey C)).flatten

/-- `PublicKey::read_batch`: `u32 LE` count, then that many pubkeys. -/
def readBatch (C : Codec G1 G2 H) (l : List Nat) :
    Option (List (PublicKey G1 G2 H) × List Nat) :=
  match decLE 4 l with
  | none => none
  | some (n, l') => readElems (readPublicKey C) n l'

/-- Spec §6 `ProvingKey` layout: `α·G₁ ‖ β·G₂ ‖ γ·G₂ ‖ δ·G₂ ‖
vec(gamma_abc_g1) ‖ β·G₁ ‖ δ·G₁ ‖ vec(a_query) ‖ vec(b_g1_query) ‖
vec(b_g2_query) ‖ vec(h_query) ‖ vec(l_query)` (the field order also read back
by `read_groth16_fast`, `parameters.rs` lines 300–344). -/
def writeProvingKey (C : Codec G1 G2 H) (pk : ProvingKey G1 G2) : List Nat :=
  C.encG1 pk.vk.alpha_g1 ++ C.encG2 pk.vk.beta_g2 ++ C.encG2 pk.vk.gamma_g2 ++
    C.encG2 pk.vk.delta_g2 ++ writeVec C.encG1 pk.vk.gamma_abc_g1 ++
    C.encG1 pk.beta_g1 ++ C.encG1 pk.delta_g1 ++
    writeVec C.encG1 pk.a_query ++ writeVec C.encG1 pk.b_g1_query ++
    writeVec C.encG2 pk.b_g2_query ++ writeVec C.encG1 pk.h_query ++
    writeVec C.encG1 pk.l_query

/-- Decoder matching `writeProvingKey`. -/
def readProvingKey (C : Codec G1 G2 H) (l : List Nat) :
    Option (ProvingKey G1 G2 × List Nat) :=
  (C.decG1 l).bind fun alpha =>
  (C.decG2 alpha.2).bind fun betaG2 =>
  (C.decG2 betaG2.2).bind fun gammaG2 =>
  (C.decG2 gammaG2.2).bind fun deltaG2 =>
  (readVec C.decG1 deltaG2.2).bind fun gammaAbc =>
  (C.decG1 gammaAbc.2).bind fun betaG1 =>
  (C.decG1 betaG1.2).bind fun deltaG1 =>
  (readVec C.decG1 deltaG1.2).bind fun aq =>
  (readVec C.decG1 aq.2).bind fun bg1 =>
  (readVec C.decG2 bg1.2).bind fun bg2 =>
  (readVec C.decG1 bg2.2).bind fun hq =>
  (readVec C.decG1 hq.2).bind fun lq =>
  some ({ vk := { alpha_g1 := alpha.1, beta_g2 := betaG2.1, gamma_g2 := gammaG2.1,
                  delta_g2 := deltaG2.1, gamma_abc_g1 := gammaAbc.1 },
          beta_g1 := betaG1.1, delta_g1 := deltaG1.1, a_query := aq.1,
          b_g1_query := bg1.1, b_g2_query := bg2.1, h_query := hq.1,
          l_query := lq.1 }, lq.2)

/-- `MPCParameters::write` (spec §6):
`ProvingKey ‖ cs_hash ‖ contribution batch`. -/
def writeMPC (C : Codec G1 G2 H) (m : MPCParameters G1 G2 H) : List Nat :=
  writeProvingKey C m.params ++ C.encH m.cs_hash ++ writeBatch C m.contributions

/-- `MPCParameters::read`: proving key, then `cs_hash`, then the batch. -/
def readMPC (C : Codec G1 G2 H) (l : List Nat) :
    Option (MPCParameters G1 G2 H × List Nat) :=
  (readProvingKey C l).bind fun pk =>
  (C.decH pk.2).bind fun ch =>
  (readBatch C ch.2).bind fun ks =>
  some ({ params := pk.1, cs_hash := ch.1, contributions := ks.1 }, ks.2)

/-- Vector lengths that fit their serialized length fields (`u64 LE` for the
query vectors, `u32 LE` for the contribution count). -/
def SizesOk (m : MPCParameters G1 G2 H) : Prop :=
  m.params.vk.gamma_abc_g1.length < 256 ^ 8 ∧
  m.params.a_query.length < 256 ^ 8 ∧
  m.params.b_g1_query.length < 256 ^ 8 ∧
  m.params.b_g2_query.length < 256 ^ 8 ∧
  m.params.h_query.length < 256 ^ 8 ∧
  m.params.l_query.length < 256 ^ 8 ∧
  m.contributions.length < 256 ^ 4

instance (m : MPCParameters G1 G2 H) : Decidable (SizesOk m) := by
  unfold SizesOk; infer_instance

/-! ## Concrete instantiation

An executable engine over `ZMod 13`: the groups are the additive group
`ZMod 13` acted on by scalars in `ZMod 13`, the pairing is multiplication
(bilinear into the exponent group of the target), and the hash primitives are
fixed concrete functions.  This instantiates every structural claim; nothing
below depends on properties the claims do not use (such as hash collision
resistance). -/

def P0 : Primitives (ZMod 13) (ZMod 13) (ZMod 13) (ZMod 13) (ZMod 13) where
  g1gen := 1
  g2gen := 1
  zero1 := 0
  add1 := fun a b => a + b
  smul1 := fun c x => c * x
  smul2 := fun c x => c * x
  pairing := fun a b => a * b
  inv := fun x =>
    match x.val with
    | 1 => 1 | 2 => 7 | 3 => 9 | 4 => 10 | 5 => 8 | 6 => 11
    | 7 => 2 | 8 => 5 | 9 => 3 | 10 => 4 | 11 => 6 | 12 => 12
    | _ => 0
  batchMul := fun l c => Except.ok (l.map (fun x => c * x))
  hashCsPubkeys := fun c ks a b => c + (ks.length : ZMod 13) + 3 * a + 5 * b
  hashToCurve := fun t => t + 7
  pubkeyHash := fun pk => pk.transcript + 11 * pk.delta_after

/-- A variant engine whose `batchMul` fails on vectors of length two (such as
`demoPK.h_query`) and behaves as pointwise scaling otherwise; it exercises the
fallible `Result` signature of `setup_utils::batch_mul`. -/
def Pfail : Primitives (ZMod 13) (ZMod 13) (ZMod 13) (ZMod 13) (ZMod 13) :=
  { P0 with
    batchMul := fun l c =>
      if l.length = 2 then Except.error Phase2Error.invalidLength
      else Except.ok (l.map (fun x => c * x)) }

def demoVK : VerifyingKey (ZMod 13) (ZMod 13) :=
  { alpha_g1 := 2, beta_g2 := 3, gamma_g2 := 1, delta_g2 := 1, gamma_abc_g1 := [4] }

def demoPK : ProvingKey (ZMod 13) (ZMod 13) :=
  { vk := demoVK, beta_g1 := 5, delta_g1 := 1, a_query := [6], b_g1_query := [7],
    b_g2_query := [8], h_query := [2, 3], l_query := [5] }

/-- A freshly constructed ceremony value: generator deltas, empty log. -/
def demoM0 : MPCParameters (ZMod 13) (ZMod 13) (ZMod 13) :=
  { params := demoPK, cs_hash := 9, contributions := [] }

/-- `demoM0` after one contribution with `δ = 2`, `s = 3`. -/
def demoM1 : MPCParameters (ZMod 13) (ZMod 13) (ZMod 13) :=
  (contribute P0 demoM0 2 3).1

/-- `demoM1` after a second contribution with `δ = 4`, `s = 5`. -/
def demoM2 : MPCParameters (ZMod 13) (ZMod 13) (ZMod 13) :=
  (contribute P0 demoM1 4 5).1

/-- The pubkey appended by the first demo contribution. -/
def demoPk1 : PublicKey (ZMod 13) (ZMod 13) (ZMod 13) :=
  (Keypair.new P0 demoM0.params.delta_g1 demoM0.cs_hash demoM0.contributions 2 3).public_key

/-! ## Theorems -/

/-- Reduction of an `Except` bind on an error, used to walk `do`-chains. -/
theorem except_error_bind {E A B : Type} (e : E) (f : A → Except E B) :
    (Except.error e >>= f) = Except.error e := rfl

/-- Reduction of an `Except` bind on a success, used to walk `do`-chains. -/
theorem except_ok_bind {E A B : Type} (a : A) (f : A → Except E B) :
    (Except.ok a >>= f) = f a := rfl

/-- C1: a successful `contribute` scales every element of `h_query` and
`l_query` by the inverse of the fresh secret `δ`, multiplies `vk.delta_g2` and
`delta_g1` by `δ`, appends exactly one pubkey — whose `delta_after` equals the
updated `delta_g1` — and returns the (BLAKE2b, here abstract) hash of that
serialized pubkey.  The hypothesis pins `batchMul` to its specified behaviour:
pointwise scaling by the constant scalar. -/
theorem contribute_updates (P : Primitives G1 G2 GT Fr H) (m : MPCParameters G1 G2 H)
    (delta : Fr) (s : G1)
    (hbm : ∀ l c, P.batchMul l c = Except.ok (l.map (P.smul1 c))) :
    (contribute P m delta s).1.params.h_query
        = m.params.h_query.map (P.smul1 (P.inv delta)) ∧
    (contribute P m delta s).1.params.l_query
        = m.params.l_query.map (P.smul1 (P.inv delta)) ∧
    (contribute P m delta s).1.params.delta_g1 = P.smul1 delta m.params.delta_g1 ∧
    (contribute P m delta s).1.params.vk.delta_g2 = P.smul2 delta m.params.vk.delta_g2 ∧
    (contribute P m delta s).1.contributions
        = m.contributions ++
            [(Keypair.new P m.params.delta_g1 m.cs_hash m.contributions delta s).public_key] ∧
    (Keypair.new P m.params.delta_g1 m.cs_hash m.contributions delta s).public_key.delta_after
        = (contribute P m delta s).1.params.delta_g1 ∧
    (contribute P m delta s).2
        = Except.ok (P.pubkeyHash
            (Keypair.new P m.params.delta_g1 m.cs_hash m.contributions delta s).public_key) := by
  simp [contribute, hbm, Keypair.new]

/-- Witness for `contribute_updates` at the concrete demo input. -/
theorem contribute_updates_w :
    (contribute P0 demoM0 2 3).1.params.h_query
        = demoM0.params.h_query.map (P0.smul1 (P0.inv 2)) ∧
    (contribute P0 demoM0 2 3).1.params.l_query
        = demoM0.params.l_query.map (P0.smul1 (P0.inv 2)) ∧
    (contribute P0 demoM0 2 3).1.params.delta_g1 = P0.smul1 2 demoM0.params.delta_g1 ∧
    (contribute P0 demoM0 2 3).1.params.vk.delta_g2 = P0.smul2 2 demoM0.params.vk.delta_g2 ∧
    (contribute P0 demoM0 2 3).1.contributions
        = demoM0.contributions ++
            [(Keypair.new P0 demoM0.params.delta_g1 demoM0.cs_hash demoM0.contributions
                2 3).public_key] ∧
    (Keypair.new P0 demoM0.params.delta_g1 demoM0.cs_hash demoM0.contributions
          2 3).public_key.delta_after
        = (contribute P0 demoM0 2 3).1.params.delta_g1 ∧
    (contribute P0 demoM0 2 3).2
        = Except.ok (P0.pubkeyHash
            (Keypair.new P0 demoM0.params.delta_g1 demoM0.cs_hash demoM0.contributions
                2 3).public_key) :=
  contribute_updates P0 demoM0 2 3 (fun _ _ => rfl)

/-- C4: whenever the after log is empty, `verify` fails with
`NoContributions` — regardless of every other field of either argument, so
before any other check can influence the outcome. -/
theorem verify_no_contributions (P : Primitives G1 G2 GT Fr H) (rho_h rho_l : List Fr)
    (before after : MPCParameters G1 G2 H) (h : after.contributions = []) :
    verify P rho_h rho_l before after = some (Except.error Phase2Error.noContributions) := by
  simp [verify, h]

/-- Witness for `verify_no_contributions`: self-verification of the fresh
demo value (empty log) fails with `NoContributions`. -/
theorem verify_no_contributions_w :
    verify P0 [1, 1] [1] demoM0 demoM0 = some (Except.error Phase2Error.noContributions) :=
  verify_no_contributions P0 [1, 1] [1] demoM0 demoM0 rfl

/-- Repeated application of `contribute`, keeping the state component of each
call (the value of the `&mut self` receiver after the call), whether or not
the call succeeded. -/
def contributeFold (P : Primitives G1 G2 GT Fr H) (steps : List (Fr × G1))
    (m : MPCParameters G1 G2 H) : MPCParameters G1 G2 H :=
  steps.foldl (fun acc st => (contribute P acc st.1 st.2).1) m

/-- One `contribute` call never writes `cs_hash` nor any field outside
`h_query`, `l_query`, `delta_g1`, `vk.delta_g2` and `contributions`, on any
path (both `batch_mul` outcomes included). -/
theorem contribute_step_frame (P : Primitives G1 G2 GT Fr H) (m : MPCParameters G1 G2 H)
    (delta : Fr) (s : G1) :
    (contribute P m delta s).1.cs_hash = m.cs_hash ∧
    (contribute P m delta s).1.params.vk.alpha_g1 = m.params.vk.alpha_g1 ∧
    (contribute P m delta s).1.params.vk.beta_g2 = m.params.vk.beta_g2 ∧
    (contribute P m delta s).1.params.vk.gamma_g2 = m.params.vk.gamma_g2 ∧
    (contribute P m delta s).1.params.vk.gamma_abc_g1 = m.params.vk.gamma_abc_g1 ∧
    (contribute P m delta s).1.params.beta_g1 = m.params.beta_g1 ∧
    (contribute P m delta s).1.params.a_query = m.params.a_query ∧
    (contribute P m delta s).1.params.b_g1_query = m.params.b_g1_query ∧
    (contribute P m delta s).1.params.b_g2_query = m.params.b_g2_query := by
  cases hl : P.batchMul m.params.l_query
      (P.inv (Keypair.new P m.params.delta_g1 m.cs_hash m.contributions delta s).private_key.delta) with
  | error e => simp [contribute, hl]
  | ok l' =>
    cases hh : P.batchMul m.params.h_query
        (P.inv (Keypair.new P m.params.delta_g1 m.cs_hash m.contributions delta s).private_key.delta) with
    | error e => simp [contribute, hl, hh]
    | ok h' => simp [contribute, hl, hh]

/-- C5: `cs_hash` is frozen — across any sequence of `contribute` calls
(successful or not) the resulting value keeps the original `cs_hash`, and
likewise every proving-key field other than `h_query`, `l_query`, `delta_g1`
and `vk.delta_g2` is never written. -/
theorem cs_hash_frozen (P : Primitives G1 G2 GT Fr H) (steps : List (Fr × G1))
    (m : MPCParameters G1 G2 H) :
    (contributeFold P steps m).cs_hash = m.cs_hash ∧
    (contributeFold P steps m).params.vk.alpha_g1 = m.params.vk.alpha_g1 ∧
    (contributeFold P steps m).params.vk.beta_g2 = m.params.vk.beta_g2 ∧
    (contributeFold P steps m).params.vk.gamma_g2 = m.params.vk.gamma_g2 ∧
    (contributeFold P steps m).params.vk.gamma_abc_g1 = m.params.vk.gamma_abc_g1 ∧
    (contributeFold P steps m).params.beta_g1 = m.params.beta_g1 ∧
    (contributeFold P steps m).params.a_query = m.params.a_query ∧
    (contributeFold P steps m).params.b_g1_query = m.params.b_g1_query ∧
    (contributeFold P steps m).params.b_g2_query = m.params.b_g2_query := by
  induction steps generalizing m with
  | nil => exact ⟨rfl, rfl, rfl, rfl, rfl, rfl, rfl, rfl, rfl⟩
  | cons st rest ih =>
    have hstep := contribute_step_frame P m st.1 st.2
    have htail := ih (contribute P m st.1 st.2).1
    unfold contributeFold at htail ⊢
    simp only [List.foldl_cons]
    refine ⟨?_, ?_, ?_, ?_, ?_, ?_, ?_, ?_, ?_⟩ <;>
      first
        | exact htail.1.trans hstep.1
        | exact htail.2.1.trans hstep.2.1
        | exact htail.2.2.1.trans hstep.2.2.1
        | exact htail.2.2.2.1.trans hstep.2.2.2.1
        | exact htail.2.2.2.2.1.trans hstep.2.2.2.2.1
        | exact htail.2.2.2.2.2.1.trans hstep.2.2.2.2.2.1
        | exact htail.2.2.2.2.2.2.1.trans hstep.2.2.2.2.2.2.1
        | exact htail.2.2.2.2.2.2.2.1.trans hstep.2.2.2.2.2.2.2.1
        | exact htail.2.2.2.2.2.2.2.2.trans hstep.2.2.2.2.2.2.2.2

/-- C10: `combine` of an empty chunk list yields no result (the source
unconditionally indexes `mpcs[0]`), while for every non-empty chunk list it
returns a result — the source has no error branch. -/
theorem combine_requires_nonempty (queries : ProvingKey G1 G2) :
    combine queries ([] : List (MPCParameters G1 G2 H)) = none ∧
    ∀ mpcs : List (MPCParameters G1 G2 H), mpcs ≠ [] →
      (combine queries mpcs).isSome = true := by
  refine ⟨rfl, ?_⟩
  intro mpcs h
  cases mpcs with
  | nil => exact absurd rfl h
  | cons m0 rest => rfl

/-- Witness for `combine_requires_nonempty` at concrete inputs. -/
theorem combine_requires_nonempty_w :
    combine demoPK ([] : List (MPCParameters (ZMod 13) (ZMod 13) (ZMod 13))) = none ∧
    (combine demoPK [demoM0]).isSome = true :=
  ⟨(combine_requires_nonempty demoPK).1,
   (combine_requires_nonempty demoPK).2 [demoM0] (by decide)⟩

/-- C3 counterexample: under an engine whose second (`h_query`) `batch_mul`
call fails, `contribute` returns an error yet the receiver is not left
unchanged — `l_query` has already been scaled by `δ⁻¹` (here `2⁻¹·5 = 9` in
`ZMod 13`) while `h_query`, `delta_g1` and `vk.delta_g2` have not been
touched: exactly the partial state the claim rules out. -/
theorem contribute_not_atomic_cex :
    (contribute Pfail demoM0 2 3).2 = Except.error Phase2Error.invalidLength ∧
    (contribute Pfail demoM0 2 3).1 ≠ demoM0 ∧
    (contribute Pfail demoM0 2 3).1.params.l_query = [9] ∧
    demoM0.params.l_query = [5] ∧
    (contribute Pfail demoM0 2 3).1.params.h_query = demoM0.params.h_query ∧
    (contribute Pfail demoM0 2 3).1.params.delta_g1 = demoM0.params.delta_g1 ∧
    (contribute Pfail demoM0 2 3).1.params.vk.delta_g2 = demoM0.params.vk.delta_g2 := by
  decide

/-- C3 amended: on any error from `contribute` every field except possibly
`l_query` is unchanged — in particular no pubkey is appended and `cs_hash`,
`h_query`, `delta_g1` and `vk.delta_g2` are untouched — while `l_query` may
already have been scaled when the failure arises in the second (`h_query`)
`batch_mul` call; and when `batchMul` is the specified infallible pointwise
scaling, `contribute` never returns an error at all. -/
theorem contribute_error_frame (P : Primitives G1 G2 GT Fr H) (m : MPCParameters G1 G2 H)
    (delta : Fr) (s : G1) :
    (∀ e, (contribute P m delta s).2 = Except.error e →
      (contribute P m delta s).1.params.h_query = m.params.h_query ∧
      (contribute P m delta s).1.params.delta_g1 = m.params.delta_g1 ∧
      (contribute P m delta s).1.params.vk.delta_g2 = m.params.vk.delta_g2 ∧
      (contribute P m delta s).1.contributions = m.contributions ∧
      (contribute P m delta s).1.cs_hash = m.cs_hash) ∧
    ((∀ l c, P.batchMul l c = Except.ok (l.map (P.smul1 c))) →
      (contribute P m delta s).2.isOk = true) := by
  constructor
  · intro e he
    cases hl : P.batchMul m.params.l_query
        (P.inv (Keypair.new P m.params.delta_g1 m.cs_hash m.contributions delta s).private_key.delta) with
    | error e' => simp [contribute, hl]
    | ok l' =>
      cases hh : P.batchMul m.params.h_query
          (P.inv (Keypair.new P m.params.delta_g1 m.cs_hash m.contributions delta s).private_key.delta) with
      | error e' => simp [contribute, hl, hh]
      | ok h' => simp [contribute, hl, hh] at he
  · intro hbm
    simp [contribute, hbm, Except.isOk, Except.toBool]

/-- Witness for `contribute_error_frame`: the error frame at the failing
engine, and infallibility at the specified engine. -/
theorem contribute_error_frame_w :
    ((contribute Pfail demoM0 2 3).1.params.h_query = demoM0.params.h_query ∧
     (contribute Pfail demoM0 2 3).1.params.delta_g1 = demoM0.params.delta_g1 ∧
     (contribute Pfail demoM0 2 3).1.params.vk.delta_g2 = demoM0.params.vk.delta_g2 ∧
     (contribute Pfail demoM0 2 3).1.contributions = demoM0.contributions ∧
     (contribute Pfail demoM0 2 3).1.cs_hash = demoM0.cs_hash) ∧
    (contribute P0 demoM0 2 3).2.isOk = true :=
  ⟨(contribute_error_frame Pfail demoM0 2 3).1 Phase2Error.invalidLength (by decide),
   (contribute_error_frame P0 demoM0 2 3).2 (fun _ _ => rfl)⟩

/-- C2 counterexample: `demoM1` carries a non-empty log produced by a genuine
contribution, and `verify demoM1 demoM1` (before = after, so the log is not a
strict prefix extension) succeeds, returning the per-contribution hashes. -/
theorem verify_self_succeeds_cex :
    demoM1.contributions ≠ [] ∧
    verify P0 [1, 1] [1] demoM1 demoM1 =
      some (Except.ok (demoM1.contributions.map P0.pubkeyHash)) := by
  decide

/-- C2 amended: a successful `verify` requires `before.contributions` to be a
(not necessarily strict) prefix of `after.contributions`: the after log is at
least as long, and its first `|before.contributions|` entries are exactly
`before.contributions`.  Equality of the two logs is allowed, so
`verify(M, M)` on a well-formed value with a non-empty log can succeed. -/
theorem verify_requires_log_extension (P : Primitives G1 G2 GT Fr H)
    (rho_h rho_l : List Fr) (before after : MPCParameters G1 G2 H) (hs : List H)
    (h : verify P rho_h rho_l before after = some (Except.ok hs)) :
    before.contributions.length ≤ after.contributions.length ∧
    before.contributions = after.contributions.take before.contributions.length := by
  unfold verify at h
  split at h
  · simp at h
  · split at h
    · rename_i hle
      dsimp only at h
      split at h
      · simp at h
      · refine ⟨hle, ?_⟩
        by_cases hc : before.contributions
            = after.contributions.take before.contributions.length
        · exact hc
        · simp [ensure_unchanged, hc, except_error_bind] at h
    · dsimp only at h
      split at h
      · simp at h
      · simp at h

/-- Witness for `verify_requires_log_extension` at the demo self-check. -/
theorem verify_requires_log_extension_w :
    demoM1.contributions.length ≤ demoM1.contributions.length ∧
    demoM1.contributions = demoM1.contributions.take demoM1.contributions.length :=
  verify_requires_log_extension P0 [1, 1] [1] demoM1 demoM1
    (demoM1.contributions.map P0.pubkeyHash) (by decide)

/-- C9: `verify` always returns a result when the after log is at least as
long as the before log; when the after log is non-empty but strictly shorter
and control reaches the log comparison (both preceding delta checks pass),
the out-of-range slice `after.contributions[0..before.contributions.len()]`
panics — modelled as `none` — so the `BrokenInvariant(Contributions)` error
branch is not what is reached. -/
theorem verify_totality (P : Primitives G1 G2 GT Fr H) (rho_h rho_l : List Fr)
    (before after : MPCParameters G1 G2 H) :
    (before.contributions.length ≤ after.contributions.length →
      (verify P rho_h rho_l before after).isSome = true) ∧
    (∀ pk, after.contributions.getLast? = some pk →
      after.contributions.length < before.contributions.length →
      pk.delta_after = after.params.delta_g1 →
      P.pairing P.g1gen after.params.vk.delta_g2 = P.pairing pk.delta_after P.g2gen →
      verify P rho_h rho_l before after = none) := by
  constructor
  · intro hle
    unfold verify
    split
    · rfl
    · dsimp only
      split
      · rfl
      · rw [if_pos hle]
        rfl
  · intro pk hg hlt hd hr
    have hnle : ¬ before.contributions.length ≤ after.contributions.length := by omega
    unfold verify
    rw [hg]
    simp [ensure_unchanged, ratioCheck, hd, hr, except_ok_bind, hnle]

/-- Witness for `verify_totality`: a longer after log yields a result; a
shorter non-empty after log passing the delta checks yields the panic. -/
theorem verify_totality_w :
    (verify P0 [1] [1] demoM0 demoM1).isSome = true ∧
    verify P0 [1] [1] demoM2 demoM1 = none :=
  ⟨(verify_totality P0 [1] [1] demoM0 demoM1).1 (by decide),
   (verify_totality P0 [1] [1] demoM2 demoM1).2 demoPk1 (by decide) (by decide)
     (by decide) (by decide)⟩

/-- The chunk slice is the `chunk_size`-sized window at offset
`i * chunk_size` (the guard and `min` of the source collapse to a clamped
`take`). -/
theorem chunkOf_eq {T : Type} (l : List T) (cs i : Nat) :
    chunkOf l cs i = (l.drop (i * cs)).take cs := by
  unfold chunkOf
  by_cases h : i * cs < l.length
  · rw [if_pos h]
    rcases Nat.le_total ((i + 1) * cs) l.length with h2 | h2
    · rw [min_eq_left h2, Nat.succ_mul, Nat.add_sub_cancel_left]
    · rw [min_eq_right h2]
      rw [Nat.succ_mul] at h2
      rw [List.take_of_length_le (by simp), List.take_of_length_le (by simp; omega)]
  · rw [if_neg h]
    rw [List.drop_eq_nil_of_le (Nat.le_of_not_lt h), List.take_nil]

/-- `numChunks` covers the longest query: `a ≤ ⌈a / cs⌉ * cs`. -/
theorem le_ceil_mul (a cs : Nat) (h : 0 < cs) : a ≤ (a + cs - 1) / cs * cs := by
  rcases a with _ | b
  · exact Nat.zero_le _
  · have heq : b + 1 + cs - 1 = b + cs := by omega
    rw [heq, Nat.add_div_right b h, Nat.succ_mul]
    have h2 := Nat.lt_div_mul_add h (a := b) (b := cs)
    omega

/-- `numChunks` is least: one chunk fewer does not cover a positive `a`. -/
theorem ceil_pred_mul_lt (a cs : Nat) (h : 0 < cs) (ha : 0 < a) :
    ((a + cs - 1) / cs - 1) * cs < a := by
  rcases a with _ | b
  · exact absurd ha (Nat.lt_irrefl 0)
  · have heq : b + 1 + cs - 1 = b + cs := by omega
    rw [heq, Nat.add_div_right b h, Nat.add_sub_cancel]
    have h2 := Nat.div_mul_le_self b cs
    omega

/-- C8: for `chunk_size > 0`, `new_chunked` produces the full parameters, the
h/l-emptied query parameters, and exactly `⌈max(|h|,|l|)/chunk_size⌉` chunks
(characterized by the two covering inequalities); chunk `i` holds the
`chunk_size`-wide slice of `h_query` (resp. `l_query`) at offset
`i·chunk_size` — empty as soon as `i·chunk_size ≥ |h_query|` — and every
chunk carries the full verifying key, the same `cs_hash` as the full
parameters, and an empty contribution log. -/
theorem new_chunked_layout (pk : ProvingKey G1 G2) (c : H) (chunk_size : Nat)
    (hcs : 0 < chunk_size) :
    new_chunked pk c chunk_size =
      some ({ params := pk, cs_hash := c, contributions := [] },
            { pk with h_query := [], l_query := [] },
            (List.range (numChunks pk chunk_size)).map (mkChunk pk c chunk_size)) ∧
    ((List.range (numChunks pk chunk_size)).map (mkChunk pk c chunk_size)).length
        = numChunks pk chunk_size ∧
    max pk.h_query.length pk.l_query.length ≤ numChunks pk chunk_size * chunk_size ∧
    (0 < max pk.h_query.length pk.l_query.length →
      (numChunks pk chunk_size - 1) * chunk_size
        < max pk.h_query.length pk.l_query.length) ∧
    ∀ i,
      (mkChunk pk c chunk_size i).params.h_query
          = (pk.h_query.drop (i * chunk_size)).take chunk_size ∧
      (mkChunk pk c chunk_size i).params.l_query
          = (pk.l_query.drop (i * chunk_size)).take chunk_size ∧
      (pk.h_query.length ≤ i * chunk_size →
        (mkChunk pk c chunk_size i).params.h_query = []) ∧
      (pk.l_query.length ≤ i * chunk_size →
        (mkChunk pk c chunk_size i).params.l_query = []) ∧
      (mkChunk pk c chunk_size i).params.vk = pk.vk ∧
      (mkChunk pk c chunk_size i).cs_hash = c ∧
      (mkChunk pk c chunk_size i).contributions = [] := by
  refine ⟨?_, by simp, le_ceil_mul _ _ hcs, ceil_pred_mul_lt _ _ hcs, ?_⟩
  · unfold new_chunked
    rw [if_neg (Nat.pos_iff_ne_zero.mp hcs)]
  · intro i
    refine ⟨chunkOf_eq pk.h_query chunk_size i, chunkOf_eq pk.l_query chunk_size i,
      ?_, ?_, rfl, rfl, rfl⟩
    · intro hlen
      show chunkOf pk.h_query chunk_size i = []
      rw [chunkOf_eq, List.drop_eq_nil_of_le hlen, List.take_nil]
    · intro hlen
      show chunkOf pk.l_query chunk_size i = []
      rw [chunkOf_eq, List.drop_eq_nil_of_le hlen, List.take_nil]

/-- Witness for `new_chunked_layout` at the demo key with `chunk_size = 1`. -/
theorem new_chunked_layout_w :
    max demoPK.h_query.length demoPK.l_query.length ≤ numChunks demoPK 1 * 1 ∧
    (mkChunk demoPK (9 : ZMod 13) 1 1).params.h_query
        = (demoPK.h_query.drop (1 * 1)).take 1 :=
  ⟨(new_chunked_layout demoPK (9 : ZMod 13) 1 (by decide)).2.2.1,
   ((new_chunked_layout demoPK (9 : ZMod 13) 1 (by decide)).2.2.2.2 1).1⟩

/-- Concatenating all `chunk_size`-wide windows of a list reassembles it once
the window count covers its length. -/
theorem chunkOf_flatten {T : Type} (cs : Nat) :
    ∀ (n : Nat) (l : List T), l.length ≤ n * cs →
      ((List.range n).map (chunkOf l cs)).flatten = l := by
  intro n
  induction n with
  | zero =>
    intro l hl
    have hlen : l.length = 0 := by simpa using hl
    rw [List.length_eq_zero] at hlen
    subst hlen
    rfl
  | succ n ih =>
    intro l hl
    rw [List.range_succ_eq_map, List.map_cons, List.map_map, List.flatten_cons]
    have hhead : chunkOf l cs 0 = l.take cs := by
      rw [chunkOf_eq, Nat.zero_mul, List.drop_zero]
    have hcomp : (chunkOf l cs) ∘ Nat.succ = chunkOf (l.drop cs) cs := by
      funext i
      show chunkOf l cs (i + 1) = chunkOf (l.drop cs) cs i
      rw [chunkOf_eq, chunkOf_eq, List.drop_drop, Nat.succ_mul, Nat.add_comm (i * cs) cs]
    have hbound : (l.drop cs).length ≤ n * cs := by
      rw [Nat.succ_mul] at hl
      simp only [List.length_drop]
      generalize n * cs = k at hl ⊢
      omega
    rw [hhead, hcomp, ih (l.drop cs) hbound]
    exact List.take_append_drop cs l

/-- The `extend_from_slice` loop of `combine` concatenates all slices behind
the accumulator. -/
theorem foldl_append_eq {A B : Type} (g : A → List B) :
    ∀ (l : List A) (acc : List B),
      l.foldl (fun acc m => acc ++ g m) acc = acc ++ (l.map g).flatten := by
  intro l
  induction l with
  | nil => intro acc; simp
  | cons x xs ih => intro acc; simp [ih]

/-- C6 amended: `combine` undoes chunking whenever at least one chunk is
produced, i.e. the query vectors are not both empty: for `chunk_size > 0`,
`new_chunked` yields the full parameters `M`, the shared query parameters `Q`
and the chunk list `Cs`, and `combine Q Cs` returns exactly `M`. -/
theorem combine_inverts_chunking (pk : ProvingKey G1 G2) (c : H) (chunk_size : Nat)
    (hcs : 0 < chunk_size) (hne : pk.h_query ≠ [] ∨ pk.l_query ≠ []) :
    new_chunked pk c chunk_size =
      some ({ params := pk, cs_hash := c, contributions := [] },
            { pk with h_query := [], l_query := [] },
            (List.range (numChunks pk chunk_size)).map (mkChunk pk c chunk_size)) ∧
    combine { pk with h_query := [], l_query := [] }
        ((List.range (numChunks pk chunk_size)).map (mkChunk pk c chunk_size)) =
      some { params := pk, cs_hash := c, contributions := [] } := by
  have hmax : 0 < max pk.h_query.length pk.l_query.length := by
    rcases hne with h | h
    · exact lt_max_of_lt_left (List.length_pos.mpr h)
    · exact lt_max_of_lt_right (List.length_pos.mpr h)
  have hflatH :
      (((List.range (numChunks pk chunk_size)).map (mkChunk pk c chunk_size)).map
          (fun m => m.params.h_query)).flatten = pk.h_query := by
    rw [List.map_map]
    have hg : (fun m : MPCParameters G1 G2 H => m.params.h_query) ∘ mkChunk pk c chunk_size
        = chunkOf pk.h_query chunk_size := rfl
    rw [hg]
    exact chunkOf_flatten chunk_size _ _
      (le_trans (le_max_left _ _) (le_ceil_mul _ _ hcs))
  have hflatL :
      (((List.range (numChunks pk chunk_size)).map (mkChunk pk c chunk_size)).map
          (fun m => m.params.l_query)).flatten = pk.l_query := by
    rw [List.map_map]
    have hg : (fun m : MPCParameters G1 G2 H => m.params.l_query) ∘ mkChunk pk c chunk_size
        = chunkOf pk.l_query chunk_size := rfl
    rw [hg]
    exact chunkOf_flatten chunk_size _ _
      (le_trans (le_max_right _ _) (le_ceil_mul _ _ hcs))
  constructor
  · unfold new_chunked
    rw [if_neg (Nat.pos_iff_ne_zero.mp hcs)]
  · have hn : 0 < numChunks pk chunk_size := by
      have : 1 ≤ (max pk.h_query.length pk.l_query.length + chunk_size - 1) / chunk_size :=
        (Nat.one_le_div_iff hcs).mpr (by omega)
      exact this
    obtain ⟨n, hn'⟩ : ∃ n, numChunks pk chunk_size = n + 1 :=
      ⟨numChunks pk chunk_size - 1, by omega⟩
    have hlist : (List.range (numChunks pk chunk_size)).map (mkChunk pk c chunk_size)
        = mkChunk pk c chunk_size 0
            :: (List.map (mkChunk pk c chunk_size) (List.map Nat.succ (List.range n))) := by
      rw [hn', List.range_succ_eq_map, List.map_cons]
    rw [hlist] at hflatH hflatL ⊢
    simp only [combine]
    rw [foldl_append_eq, foldl_append_eq, List.nil_append, List.nil_append, hflatH, hflatL]
    rfl

/-- Proving key with both query vectors empty: a valid `new_chunked` input
that produces zero chunks. -/
def demoPKEmpty : ProvingKey (ZMod 13) (ZMod 13) :=
  { vk := demoVK, beta_g1 := 5, delta_g1 := 1, a_query := [6], b_g1_query := [7],
    b_g2_query := [8], h_query := [], l_query := [] }

/-- C6 counterexample: on a valid `new_chunked` input whose `h_query` and
`l_query` are both empty, zero chunks are produced, and `combine` applied to
the resulting query parameters and (empty) chunk list yields no result at all
(the `mpcs[0]` panic) instead of the original parameters. -/
theorem combine_inverts_chunking_cex :
    new_chunked demoPKEmpty (9 : ZMod 13) 1 =
      some ({ params := demoPKEmpty, cs_hash := 9, contributions := [] }, demoPKEmpty,
            ([] : List (MPCParameters (ZMod 13) (ZMod 13) (ZMod 13)))) ∧
    combine demoPKEmpty ([] : List (MPCParameters (ZMod 13) (ZMod 13) (ZMod 13))) = none := by
  decide

/-- Witness for `combine_inverts_chunking` at the demo key. -/
theorem combine_inverts_chunking_w :
    new_chunked demoPK (9 : ZMod 13) 1 =
      some ({ params := demoPK, cs_hash := 9, contributions := [] },
            { demoPK with h_query := [], l_query := [] },
            (List.range (numChunks demoPK 1)).map (mkChunk demoPK (9 : ZMod 13) 1)) ∧
    combine { demoPK with h_query := [], l_query := [] }
        ((List.range (numChunks demoPK 1)).map (mkChunk demoPK (9 : ZMod 13) 1)) =
      some { params := demoPK, cs_hash := 9, contributions := [] } :=
  combine_inverts_chunking demoPK (9 : ZMod 13) 1 (by decide) (Or.inl (by decide))

/-- `decLE` undoes `natLE` on any value that fits in `k` bytes. -/
theorem decLE_natLE (k : Nat) : ∀ (n : Nat), n < 256 ^ k →
    ∀ (rest : List Nat), decLE k (natLE k n ++ rest) = some (n, rest) := by
  induction k with
  | zero =>
    intro n h rest
    have hn : n = 0 := Nat.lt_one_iff.mp (by simpa using h)
    subst hn
    rfl
  | succ k ih =>
    intro n h rest
    have hdiv : n / 256 < 256 ^ k := by
      rw [Nat.div_lt_iff_lt_mul (by omega)]
      calc n < 256 ^ (k + 1) := h
        _ = 256 ^ k * 256 := by rw [Nat.pow_succ]
    show decLE (k + 1) ((n % 256 :: natLE k (n / 256)) ++ rest) = some (n, rest)
    rw [List.cons_append]
    show (decLE k (natLE k (n / 256) ++ rest)).map _ = some (n, rest)
    rw [ih (n / 256) hdiv rest]
    simp [Nat.mod_add_div]

/-- `readElems` undoes the concatenation of encoded elements, for any element
codec that round-trips. -/
theorem readElems_encode {T : Type} (enc : T → List Nat)
    (dec : List Nat → Option (T × List Nat))
    (hrt : ∀ x rest, dec (enc x ++ rest) = some (x, rest)) :
    ∀ (v : List T) (rest : List Nat),
      readElems dec v.length ((v.map enc).flatten ++ rest) = some (v, rest) := by
  intro v
  induction v with
  | nil => intro rest; rfl
  | cons x xs ih =>
    intro rest
    show readElems dec (xs.length + 1) ((enc x ++ (xs.map enc).flatten) ++ rest)
        = some (x :: xs, rest)
    rw [List.append_assoc]
    show (match dec (enc x ++ ((xs.map enc).flatten ++ rest)) with
      | none => none
      | some (y, l') => (readElems dec xs.length l').map (fun p => (y :: p.1, p.2)))
        = some (x :: xs, rest)
    rw [hrt x ((xs.map enc).flatten ++ rest)]
    show Option.map (fun p => (x :: p.1, p.2))
        (readElems dec xs.length ((xs.map enc).flatten ++ rest)) = some (x :: xs, rest)
    rw [ih rest]
    rfl

/-- `readVec` undoes `writeVec` when the length fits its `u64 LE` field. -/
theorem readVec_writeVec {T : Type} (enc : T → List Nat)
    (dec : List Nat → Option (T × List Nat))
    (hrt : ∀ x rest, dec (enc x ++ rest) = some (x, rest))
    (v : List T) (hlen : v.length < 256 ^ 8) :
    ∀ (rest : List Nat), readVec dec (writeVec enc v ++ rest) = some (v, rest) := by
  intro rest
  unfold readVec writeVec
  rw [List.append_assoc, decLE_natLE 8 v.length hlen ((v.map enc).flatten ++ rest)]
  exact readElems_encode enc dec hrt v rest

/-- `readPublicKey` undoes `writePublicKey` for any round-tripping codec. -/
theorem readPublicKey_writePublicKey (C : Codec G1 G2 H) (hC : C.RoundTrip)
    (pk : PublicKey G1 G2 H) :
    ∀ (rest : List Nat), readPublicKey C (writePublicKey C pk ++ rest) = some (pk, rest) := by
  intro rest
  simp [readPublicKey, writePublicKey, List.append_assoc, hC.1, hC.2.1, hC.2.2]

/-- `readBatch` undoes `writeBatch` when the count fits its `u32 LE` field. -/
theorem readBatch_writeBatch (C : Codec G1 G2 H) (hC : C.RoundTrip)
    (ks : List (PublicKey G1 G2 H)) (hlen : ks.length < 256 ^ 4) :
    ∀ (rest : List Nat), readBatch C (writeBatch C ks ++ rest) = some (ks, rest) := by
  intro rest
  unfold readBatch writeBatch
  rw [List.append_assoc, decLE_natLE 4 ks.length hlen ((ks.map (writePublicKey C)).flatten ++ rest)]
  exact readElems_encode (writePublicKey C) (readPublicKey C)
    (readPublicKey_writePublicKey C hC) ks rest

/-- `readProvingKey` undoes `writeProvingKey` when every vector length fits
its `u64 LE` field. -/
theorem readProvingKey_writeProvingKey (C : Codec G1 G2 H) (hC : C.RoundTrip)
    (pk : ProvingKey G1 G2)
    (h1 : pk.vk.gamma_abc_g1.length < 256 ^ 8)
    (h2 : pk.a_query.length < 256 ^ 8)
    (h3 : pk.b_g1_query.length < 256 ^ 8)
    (h4 : pk.b_g2_query.length < 256 ^ 8)
    (h5 : pk.h_query.length < 256 ^ 8)
    (h6 : pk.l_query.length < 256 ^ 8) :
    ∀ (rest : List Nat), readProvingKey C (writeProvingKey C pk ++ rest) = some (pk, rest) := by
  intro rest
  simp only [readProvingKey, writeProvingKey, List.append_assoc, hC.1, hC.2.1, hC.2.2,
    readVec_writeVec C.encG1 C.decG1 hC.1 pk.vk.gamma_abc_g1 h1,
    readVec_writeVec C.encG1 C.decG1 hC.1 pk.a_query h2,
    readVec_writeVec C.encG1 C.decG1 hC.1 pk.b_g1_query h3,
    readVec_writeVec C.encG2 C.decG2 hC.2.1 pk.b_g2_query h4,
    readVec_writeVec C.encG1 C.decG1 hC.1 pk.h_query h5,
    readVec_writeVec C.encG1 C.decG1 hC.1 pk.l_query h6,
    Option.some_bind]

/-- C7: serialization round-trip — for every `MPCParameters` whose vector
lengths fit their serialized length fields, and any element codec that
round-trips, `read` applied to the output of `write` returns the value
exactly (and consumes exactly its bytes). -/
theorem readMPC_writeMPC (C : Codec G1 G2 H) (hC : C.RoundTrip)
    (m : MPCParameters G1 G2 H) (hm : SizesOk m) (rest : List Nat) :
    readMPC C (writeMPC C m ++ rest) = some (m, rest) := by
  obtain ⟨h1, h2, h3, h4, h5, h6, h7⟩ := hm
  simp [readMPC, writeMPC, List.append_assoc, hC.2.2,
    readProvingKey_writeProvingKey C hC m.params h1 h2 h3 h4 h5 h6,
    readBatch_writeBatch C hC m.contributions h7]

/-- Concrete byte codec for `ZMod 13`: one byte holding the value. -/
def C13 : Codec (ZMod 13) (ZMod 13) (ZMod 13) where
  encG1 := fun x => [x.val]
  decG1 := fun l => match l with | [] => none | b :: r => some ((b : ZMod 13), r)
  encG2 := fun x => [x.val]
  decG2 := fun l => match l with | [] => none | b :: r => some ((b : ZMod 13), r)
  encH := fun x => [x.val]
  decH := fun l => match l with | [] => none | b :: r => some ((b : ZMod 13), r)

/-- The concrete codec round-trips. -/
theorem C13_roundTrip : C13.RoundTrip := by
  refine ⟨?_, ?_, ?_⟩ <;>
    · intro x rest
      show some (((x.val : Nat) : ZMod 13), rest) = some (x, rest)
      rw [ZMod.natCast_rightInverse x]

/-- Witness for `readMPC_writeMPC` at the demo value. -/
theorem readMPC_writeMPC_w :
    readMPC C13 (writeMPC C13 demoM1 ++ []) = some (demoM1, []) :=
  readMPC_writeMPC C13 C13_roundTrip demoM1 (by decide) []

end Phase2
